import Mathlib

/-!
Shallow embedding of the Uno rules engine from `src/uno_game` (card.rs,
player.rs, game.rs).  Machine integers (`usize`, `u8`) are modelled as `Nat`;
`Vec` as `List` with `Vec::pop` taking the LAST element; Rust panics
(out-of-bounds indexing) as `Option.none`; fallible operations return the
error together with the (possibly mutated) state, since in Rust the `&mut`
state persists across an `Err` return.  The deck shuffle performed by
`initialize_deck` uses `rand::rng` and is modelled by quantifying over an
arbitrary permutation of the unshuffled deck.
-/

/-- Color enumeration from card.rs. -/
inductive Color
| Red
| Green
| Blue
| Yellow
| Wild
deriving DecidableEq

/-- CardType enumeration from card.rs; `Number(u8)` modelled with `Nat`. -/
inductive CardType
| Number (n : Nat)
| Skip
| Reverse
| DrawTwo
| Wild
| WildDrawFour
deriving DecidableEq

/-- Card struct from card.rs: color, card_type and the optional player_id. -/
structure Card where
  color : Color
  card_type : CardType
  player_id : Option Nat
deriving DecidableEq

/-- `Card::new` from card.rs: player_id starts as `None`. -/
def Card.new (color : Color) (card_type : CardType) : Card :=
  ⟨color, card_type, none⟩

/-- Player struct from player.rs. -/
structure Player where
  id : Nat
  name : String
  hand : List Card
deriving DecidableEq

/-- `Player::new` from player.rs: empty hand. -/
def Player.new (id : Nat) (name : String) : Player :=
  ⟨id, name, []⟩

/-- Direction enumeration from game.rs. -/
inductive Direction
| Clockwise
| CounterClockwise
deriving DecidableEq

/-- `Direction::reverse` from game.rs. -/
def Direction.reverse : Direction → Direction
| Direction.Clockwise => Direction.CounterClockwise
| Direction.CounterClockwise => Direction.Clockwise

/-- GameStatus enumeration from game.rs. -/
inductive GameStatus
| InProgress
| Complete (winner_id : Nat)
deriving DecidableEq

/-- GameError enumeration from game.rs. -/
inductive GameError
| InvalidMove
| CardNotInHand
| GameAlreadyOver
| EmptyDeck
| Other (msg : String)
deriving DecidableEq

/-- GameEvent enumeration from game.rs (fields positional, in source order). -/
inductive GameEvent
| CardPlayed (player_id : Nat) (player_name : String) (card : Card)
| CardDrawn (player_id : Nat) (card : Card)
| Skip (player_id : Nat)
| Reverse
| DrawTwo (player_id : Nat) (cards : List Card)
| WildColorChosen (player_id : Nat) (color : Color)
| WildDrawFour (player_id : Nat) (next_player_id : Nat) (cards : List Card) (color : Color)
| PlayerWins (player_id : Nat)
deriving DecidableEq

/-- UnoGame struct from game.rs.  `discard_pile` entries pair the card with
the id of the player who played it. -/
structure UnoGame where
  players : List Player
  deck : List Card
  discard_pile : List (Card × Nat)
  current_turn : Nat
  direction : Direction
  pending_draws : Nat
  status : GameStatus
deriving DecidableEq

/-- `usize::MAX`, used in game.rs to mark the seeded discard card as played
by no player. -/
def usize_MAX : Nat := 2 ^ 64 - 1

/-- `Vec::pop`: removes and returns the LAST element (the "top" of a pile). -/
def popTop {α : Type} : List α → Option (α × List α)
| [] => none
| [a] => some (a, [])
| a :: b :: rest =>
  match popTop (b :: rest) with
  | some (x, l') => some (x, a :: l')
  | none => none

/-- The 108-card deck built by `UnoGame::initialize_deck` for one color:
one Number 0, two of each Number 1..9, and two each of Skip, Reverse,
DrawTwo (same push order as the source loops). -/
def colorCards (c : Color) : List Card :=
  [Card.new c (CardType.Number 0)]
    ++ (List.range' 1 9).flatMap
        (fun n => [Card.new c (CardType.Number n), Card.new c (CardType.Number n)])
    ++ (List.replicate 2
        [Card.new c CardType.Skip, Card.new c CardType.Reverse,
         Card.new c CardType.DrawTwo]).flatten

/-- `UnoGame::initialize_deck` from game.rs before its final shuffle: the
four color blocks followed by 4 Wild and 4 WildDrawFour cards.  The shuffle
(`rand::rng`) is modelled by quantifying theorems over an arbitrary
permutation of this list. -/
def initialize_deck_unshuffled : List Card :=
  ([Color.Red, Color.Green, Color.Blue, Color.Yellow].flatMap colorCards)
    ++ (List.replicate 4
        [Card.new Color.Wild CardType.Wild,
         Card.new Color.Wild CardType.WildDrawFour]).flatten

/-- One pass of the dealing loop in `UnoGame::new`: each player in order
pops one card off the deck top into their hand (`Player::add_card` pushes
to the back); `EmptyDeck` if the deck runs out. -/
def dealRound : List Player → List Card → Except GameError (List Player × List Card)
| [], deck => Except.ok ([], deck)
| p :: rest, deck =>
  match popTop deck with
  | some (card, deck') =>
    match dealRound rest deck' with
    | Except.ok (rest', deck'') =>
        Except.ok ({ p with hand := p.hand ++ [card] } :: rest', deck'')
    | Except.error e => Except.error e
  | none => Except.error GameError.EmptyDeck

/-- The outer `for _ in 0..7` dealing loop of `UnoGame::new`. -/
def dealRounds : Nat → List Player → List Card → Except GameError (List Player × List Card)
| 0, ps, deck => Except.ok (ps, deck)
| n + 1, ps, deck =>
  match dealRound ps deck with
  | Except.ok (ps', deck') => dealRounds n ps' deck'
  | Except.error e => Except.error e

/-- `UnoGame::new` from game.rs, parametrised by the already-shuffled deck:
create players from the names, deal 7 rounds, seed the discard pile with one
more popped card (tagged `usize::MAX`), and set the initial fields. -/
def UnoGame.new (player_names : List String) (deck0 : List Card) :
    Except GameError UnoGame :=
  let players := player_names.enum.map (fun p => Player.new p.1 p.2)
  match dealRounds 7 players deck0 with
  | Except.error e => Except.error e
  | Except.ok (players', deck) =>
    match popTop deck with
    | none => Except.error GameError.EmptyDeck
    | some (top_card, deck') =>
      Except.ok
        { players := players'
          deck := deck'
          discard_pile := [(top_card, usize_MAX)]
          current_turn := 0
          direction := Direction.Clockwise
          pending_draws := 0
          status := GameStatus.InProgress }

/-- `UnoGame::next_turn` from game.rs. -/
def UnoGame.next_turn (g : UnoGame) : UnoGame :=
  let num_players := g.players.length
  match g.direction with
  | Direction.Clockwise =>
      { g with current_turn := (g.current_turn + 1) % num_players }
  | Direction.CounterClockwise =>
      { g with current_turn := (g.current_turn + num_players - 1) % num_players }

/-- `UnoGame::reverse_direction` from game.rs. -/
def UnoGame.reverse_direction (g : UnoGame) : UnoGame :=
  { g with direction := g.direction.reverse }

/-- `UnoGame::can_play_card` from game.rs: wilds always playable; anything
playable on a wild-colored top; otherwise same color, or both Number with
equal rank (action kinds never match by kind alone). -/
def can_play_card (card top_card : Card) : Bool :=
  if card.color = Color.Wild ∨ card.card_type = CardType.Wild
      ∨ card.card_type = CardType.WildDrawFour then
    true
  else if top_card.color = Color.Wild then
    true
  else
    decide (card.color = top_card.color) ||
      match card.card_type with
      | CardType.Number n =>
        match top_card.card_type with
        | CardType.Number m => decide (n = m)
        | _ => false
      | _ => false

/-- `UnoGame::play_card` from game.rs.  Returns `none` for a Rust panic
(indexing `players[player_id]` out of bounds); otherwise the source's
`Result<GameEvent, String>` together with the resulting state (errors leave
the state as the source leaves its `&mut self`).  The source's
`card_index >= hand.len()` guard and `hand.remove(card_index)` are fused
into one `List.get?` match, which errors exactly when the index is out of
bounds. -/
def UnoGame.play_card (g : UnoGame) (player_id card_index : Nat) :
    Option (Except String GameEvent × UnoGame) :=
  if (match g.status with | GameStatus.Complete _ => true | _ => false) then
    some (Except.error ("Game is already over"), g)
  else if player_id ≠ g.current_turn then
    some (Except.error ("Not your turn"), g)
  else
    match g.players.get? player_id with
    | none => none
    | some player =>
      match player.hand.get? card_index with
      | none => some (Except.error ("Invalid card index"), g)
      | some card =>
        let newHand := player.hand.eraseIdx card_index
        let g2 : UnoGame :=
          { g with
              players := g.players.set player_id { player with hand := newHand }
              discard_pile := g.discard_pile ++ [(card, player_id)] }
        if newHand.isEmpty then
          some (Except.ok (GameEvent.PlayerWins player_id),
                { g2 with status := GameStatus.Complete player_id })
        else
          match card.card_type with
          | CardType.Skip =>
            some (Except.ok (GameEvent.CardPlayed player_id player.name card),
                  g2.next_turn.next_turn)
          | CardType.Reverse =>
            some (Except.ok (GameEvent.CardPlayed player_id player.name card),
                  g2.reverse_direction.next_turn)
          | CardType.DrawTwo =>
            some (Except.ok (GameEvent.CardPlayed player_id player.name card),
                  ({ g2 with pending_draws := 2 } : UnoGame).next_turn)
          | CardType.WildDrawFour =>
            some (Except.ok (GameEvent.CardPlayed player_id player.name card),
                  ({ g2 with pending_draws := 4 } : UnoGame).next_turn)
          | _ =>
            some (Except.ok (GameEvent.CardPlayed player_id player.name card),
                  g2.next_turn)

/-- The pending-draws loop of `UnoGame::draw_card`: pop one card per owed
draw into the hand, accumulating the drawn cards; on an empty deck return
`EmptyDeck` keeping the cards already moved (the source mutates through
`&mut` and does not roll back). -/
def drawPending : Nat → Player → List Card → List Card →
    Except GameError (List Card) × Player × List Card
| 0, player, deck, cards => (Except.ok cards, player, deck)
| n + 1, player, deck, cards =>
  match popTop deck with
  | some (card, deck') =>
      drawPending n { player with hand := player.hand ++ [card] } deck' (cards ++ [card])
  | none => (Except.error GameError.EmptyDeck, player, deck)

/-- `UnoGame::draw_card` from game.rs.  `none` models the Rust panic on
`players[player_id]` with an out-of-range id; otherwise the source's
`Result<GameEvent, GameError>` with the resulting state (the `EmptyDeck`
error during the pending-draws loop keeps the partially drawn cards and
leaves `pending_draws` untouched, as the source does). -/
def UnoGame.draw_card (g : UnoGame) (player_id : Nat) :
    Option (Except GameError GameEvent × UnoGame) :=
  match g.players.get? player_id with
  | none => none
  | some player =>
    if g.pending_draws > 0 then
      match drawPending g.pending_draws player g.deck [] with
      | (Except.ok cards, player', deck') =>
        some (Except.ok (GameEvent.DrawTwo player_id cards),
              ({ g with
                  players := g.players.set player_id player'
                  deck := deck'
                  pending_draws := 0 } : UnoGame).next_turn)
      | (Except.error e, player', deck') =>
        some (Except.error e,
              { g with
                  players := g.players.set player_id player'
                  deck := deck' })
    else
      match popTop g.deck with
      | some (card, deck') =>
        some (Except.ok (GameEvent.CardDrawn player_id card),
              ({ g with
                  players := g.players.set player_id
                    { player with hand := player.hand ++ [card] }
                  deck := deck' } : UnoGame).next_turn)
      | none => some (Except.error GameError.EmptyDeck, g)

/-! ### Helper definitions and lemmas -/

/-- Total number of cards held in players' hands. -/
def handsSum (ps : List Player) : Nat :=
  (ps.map (fun p => p.hand.length)).sum

/-- Total number of cards in a game state: draw pile, discard pile and all
hands. -/
def cardCount (g : UnoGame) : Nat :=
  g.deck.length + g.discard_pile.length + handsSum g.players

theorem popTop_length {α : Type} :
    ∀ {l l' : List α} {c : α}, popTop l = some (c, l') → l.length = l'.length + 1 := by
  intro l
  induction l with
  | nil => intro l' c h; simp [popTop] at h
  | cons a rest ih =>
    intro l' c h
    cases rest with
    | nil =>
      simp only [popTop, Option.some.injEq, Prod.mk.injEq] at h
      obtain ⟨rfl, rfl⟩ := h
      rfl
    | cons b rest2 =>
      simp only [popTop] at h
      cases heq : popTop (b :: rest2) with
      | none => rw [heq] at h; simp at h
      | some pr =>
        obtain ⟨x, l2⟩ := pr
        rw [heq] at h
        simp only [Option.some.injEq, Prod.mk.injEq] at h
        obtain ⟨rfl, rfl⟩ := h
        have := ih heq
        simp [List.length_cons, this]

theorem popTop_exists {α : Type} :
    ∀ {l : List α}, 0 < l.length → ∃ c l', popTop l = some (c, l') := by
  intro l
  induction l with
  | nil => intro h; simp at h
  | cons a rest ih =>
    intro _
    cases rest with
    | nil => exact ⟨a, [], rfl⟩
    | cons b rest2 =>
      obtain ⟨c, l', hc⟩ := ih (by simp)
      exact ⟨c, a :: l', by simp only [popTop, hc]⟩

theorem handsSum_set :
    ∀ (ps : List Player) (p : Nat) (player q : Player), ps.get? p = some player →
      handsSum (ps.set p q) + player.hand.length = handsSum ps + q.hand.length := by
  intro ps
  induction ps with
  | nil => intro p player q h; simp at h
  | cons a rest ih =>
    intro p player q h
    cases p with
    | zero =>
      simp only [List.get?] at h
      cases h
      simp [handsSum, List.set]
      omega
    | succ p' =>
      simp only [List.get?] at h
      have := ih p' player q h
      simp only [handsSum, List.set, List.map_cons, List.sum_cons] at this ⊢
      omega

theorem dealRound_conserve :
    ∀ (ps : List Player) (d : List Card) (ps' : List Player) (d' : List Card),
      dealRound ps d = Except.ok (ps', d') →
      handsSum ps' + d'.length = handsSum ps + d.length ∧ ps'.length = ps.length := by
  intro ps
  induction ps with
  | nil =>
    intro d ps' d' h
    simp only [dealRound, Except.ok.injEq, Prod.mk.injEq] at h
    obtain ⟨rfl, rfl⟩ := h
    exact ⟨rfl, rfl⟩
  | cons p rest ih =>
    intro d ps' d' h
    cases hpop : popTop d with
    | none => simp only [dealRound, hpop] at h; exact absurd h (by simp)
    | some pr =>
      obtain ⟨card, d2⟩ := pr
      simp only [dealRound, hpop] at h
      cases hrec : dealRound rest d2 with
      | error e => simp only [hrec] at h; exact absurd h (by simp)
      | ok pr2 =>
        obtain ⟨rest', d3⟩ := pr2
        simp only [hrec, Except.ok.injEq, Prod.mk.injEq] at h
        obtain ⟨rfl, rfl⟩ := h
        have hlen := popTop_length hpop
        have := ih _ _ _ hrec
        simp only [handsSum, List.map_cons, List.sum_cons, List.length_cons,
          List.length_append, List.length_cons, List.length_nil] at this ⊢
        omega

theorem dealRounds_conserve :
    ∀ (n : Nat) (ps : List Player) (d : List Card) (ps' : List Player) (d' : List Card),
      dealRounds n ps d = Except.ok (ps', d') →
      handsSum ps' + d'.length = handsSum ps + d.length ∧ ps'.length = ps.length := by
  intro n
  induction n with
  | zero =>
    intro ps d ps' d' h
    simp only [dealRounds, Except.ok.injEq, Prod.mk.injEq] at h
    obtain ⟨rfl, rfl⟩ := h
    exact ⟨rfl, rfl⟩
  | succ n' ih =>
    intro ps d ps' d' h
    simp only [dealRounds] at h
    cases hr : dealRound ps d with
    | error e => rw [hr] at h; simp at h
    | ok pr =>
      obtain ⟨ps2, d2⟩ := pr
      rw [hr] at h
      have h1 := dealRound_conserve ps d ps2 d2 hr
      have h2 := ih ps2 d2 ps' d' h
      omega

theorem cardCount_next_turn (g : UnoGame) : cardCount g.next_turn = cardCount g := by
  unfold UnoGame.next_turn
  cases g.direction <;> rfl

theorem cardCount_reverse_direction (g : UnoGame) :
    cardCount g.reverse_direction = cardCount g := rfl

/-- The list of hand sizes of a roster of players. -/
def handsVec (ps : List Player) : List Nat :=
  ps.map (fun p => p.hand.length)

theorem popTop_spec {α : Type} {l : List α} (h : 0 < l.length) :
    ∃ c l', popTop l = some (c, l') ∧ l'.length = l.length - 1 := by
  obtain ⟨c, l', hc⟩ := popTop_exists h
  exact ⟨c, l', hc, by have := popTop_length hc; omega⟩

theorem dealRound_spec :
    ∀ (ps : List Player) (d : List Card), ps.length ≤ d.length →
      ∃ ps' d', dealRound ps d = Except.ok (ps', d') ∧
        handsVec ps' = (handsVec ps).map (fun x => x + 1) ∧
        d'.length = d.length - ps.length := by
  intro ps
  induction ps with
  | nil => intro d _; exact ⟨[], d, rfl, rfl, rfl⟩
  | cons p rest ih =>
    intro d hle
    simp only [List.length_cons] at hle
    obtain ⟨c, d2, hpop, hd2⟩ := popTop_spec (l := d) (by omega)
    obtain ⟨rest', d3, hrec, hhv, hd3⟩ := ih d2 (by omega)
    refine ⟨{ p with hand := p.hand ++ [c] } :: rest', d3, ?_, ?_, ?_⟩
    · simp only [dealRound, hpop, hrec]
    · simp only [handsVec, List.map_cons, List.length_append, List.length_cons,
        List.length_nil] at hhv ⊢
      rw [hhv]
    · simp only [List.length_cons]
      omega

theorem dealRounds_spec :
    ∀ (n : Nat) (ps : List Player) (d : List Card), n * ps.length ≤ d.length →
      ∃ ps' d', dealRounds n ps d = Except.ok (ps', d') ∧
        handsVec ps' = (handsVec ps).map (fun x => x + n) ∧
        d'.length = d.length - n * ps.length := by
  intro n
  induction n with
  | zero =>
    intro ps d _
    refine ⟨ps, d, rfl, ?_, by omega⟩
    simp [handsVec]
  | succ n' ih =>
    intro ps d hle
    have hps : ps.length ≤ d.length := by
      have : 1 * ps.length ≤ (n' + 1) * ps.length := Nat.mul_le_mul_right _ (by omega)
      omega
    obtain ⟨ps2, d2, h1, hhv1, hd1⟩ := dealRound_spec ps d hps
    have hlen2 : ps2.length = ps.length := by
      have := congrArg List.length hhv1
      simpa [handsVec] using this
    have hmul : (n' + 1) * ps.length = ps.length + n' * ps.length := by ring
    have hbound : n' * ps2.length ≤ d2.length := by
      rw [hlen2, hd1]; omega
    obtain ⟨ps', d', h2, hhv2, hd2⟩ := ih ps2 d2 hbound
    refine ⟨ps', d', ?_, ?_, ?_⟩
    · simp only [dealRounds, h1, h2]
    · rw [hhv2, hhv1, List.map_map]
      congr 1
      funext x
      simp only [Function.comp_apply]
      omega
    · rw [hd2, hd1, hlen2]
      omega

theorem cardCount_set_status (g : UnoGame) (s : GameStatus) :
    cardCount { g with status := s } = cardCount g := rfl

theorem cardCount_play_core (g : UnoGame) (p i : Nat) (player : Player) (card : Card)
    (hp : g.players.get? p = some player) (hi : player.hand.get? i = some card) :
    cardCount
      { g with
          players := g.players.set p { player with hand := player.hand.eraseIdx i }
          discard_pile := g.discard_pile ++ [(card, p)] } = cardCount g := by
  have hlt : i < player.hand.length := by
    rw [List.get?_eq_some] at hi
    exact hi.1
  have he : (player.hand.eraseIdx i).length + 1 = player.hand.length :=
    List.length_eraseIdx_add_one hlt
  have hs := handsSum_set g.players p player
    { player with hand := player.hand.eraseIdx i } hp
  simp only [cardCount, List.length_append, List.length_cons, List.length_nil]
  dsimp only at hs
  omega

theorem play_card_count {g : UnoGame} {p i : Nat} {r : Except String GameEvent}
    {g' : UnoGame} (h : g.play_card p i = some (r, g')) : cardCount g' = cardCount g := by
  unfold UnoGame.play_card at h
  split at h
  · obtain ⟨rfl, rfl⟩ : _ ∧ g = g' := by
      simpa using h
    rfl
  · split at h
    · obtain ⟨rfl, rfl⟩ : _ ∧ g = g' := by
        simpa using h
      rfl
    · cases hp : g.players.get? p with
      | none => rw [hp] at h; exact absurd h (by simp)
      | some player =>
        rw [hp] at h
        simp only at h
        cases hi : player.hand.get? i with
        | none =>
          rw [hi] at h
          simp only [Option.some.injEq, Prod.mk.injEq] at h
          obtain ⟨rfl, rfl⟩ := h
          rfl
        | some card =>
          rw [hi] at h
          simp only at h
          have hcore := cardCount_play_core g p i player card hp hi
          split at h
          · simp only [Option.some.injEq, Prod.mk.injEq] at h
            obtain ⟨rfl, rfl⟩ := h
            rw [cardCount_set_status]
            exact hcore
          · split at h <;>
            · simp only [Option.some.injEq, Prod.mk.injEq] at h
              obtain ⟨rfl, rfl⟩ := h
              simp only [cardCount_next_turn]
              exact hcore

theorem drawPending_count :
    ∀ (n : Nat) (player : Player) (deck cards : List Card)
      (r : Except GameError (List Card)) (player' : Player) (deck' : List Card),
      drawPending n player deck cards = (r, player', deck') →
      player'.hand.length + deck'.length = player.hand.length + deck.length := by
  intro n
  induction n with
  | zero =>
    intro player deck cards r player' deck' h
    simp only [drawPending, Prod.mk.injEq] at h
    obtain ⟨-, rfl, rfl⟩ := h
    rfl
  | succ n' ih =>
    intro player deck cards r player' deck' h
    cases hpop : popTop deck with
    | none =>
      simp only [drawPending, hpop, Prod.mk.injEq] at h
      obtain ⟨-, rfl, rfl⟩ := h
      rfl
    | some pr =>
      obtain ⟨card, d2⟩ := pr
      simp only [drawPending, hpop] at h
      have := ih _ _ _ _ _ _ h
      have hlen := popTop_length hpop
      simp only [List.length_append, List.length_cons, List.length_nil] at this
      omega

theorem draw_card_count {g : UnoGame} {p : Nat} {r : Except GameError GameEvent}
    {g' : UnoGame} (h : g.draw_card p = some (r, g')) : cardCount g' = cardCount g := by
  unfold UnoGame.draw_card at h
  cases hp : g.players.get? p with
  | none => rw [hp] at h; exact absurd h (by simp)
  | some player =>
    rw [hp] at h
    simp only at h
    split at h
    · cases hdp : drawPending g.pending_draws player g.deck [] with
      | mk r1 pr =>
        obtain ⟨player', deck'⟩ := pr
        rw [hdp] at h
        have hcnt := drawPending_count _ _ _ _ _ _ _ hdp
        have hs := handsSum_set g.players p player player' hp
        cases r1 with
        | ok cards =>
          simp only [Option.some.injEq, Prod.mk.injEq] at h
          obtain ⟨rfl, rfl⟩ := h
          rw [cardCount_next_turn]
          simp only [cardCount]
          omega
        | error e =>
          simp only [Option.some.injEq, Prod.mk.injEq] at h
          obtain ⟨rfl, rfl⟩ := h
          simp only [cardCount]
          omega
    · cases hpop : popTop g.deck with
      | none =>
        rw [hpop] at h
        simp only [Option.some.injEq, Prod.mk.injEq] at h
        obtain ⟨rfl, rfl⟩ := h
        rfl
      | some pr =>
        obtain ⟨card, deck'⟩ := pr
        rw [hpop] at h
        simp only [Option.some.injEq, Prod.mk.injEq] at h
        obtain ⟨rfl, rfl⟩ := h
        have hlen := popTop_length hpop
        have hs := handsSum_set g.players p player
          { player with hand := player.hand ++ [card] } hp
        simp only [List.length_append, List.length_cons, List.length_nil] at hs
        rw [cardCount_next_turn]
        simp only [cardCount]
        omega

/-- States reachable from a successful `UnoGame::new` on some roster of
names and some shuffle of the standard deck, by any sequence of `play_card`
and `draw_card` calls, successful or failed (a call that panics yields no
successor state). -/
inductive Reachable : UnoGame → Prop
| base (names : List String) (d : List Card) (g : UnoGame) :
    d.Perm initialize_deck_unshuffled → UnoGame.new names d = Except.ok g →
    Reachable g
| play (g g' : UnoGame) (p i : Nat) (r : Except String GameEvent) :
    Reachable g → g.play_card p i = some (r, g') → Reachable g'
| draw (g g' : UnoGame) (p : Nat) (r : Except GameError GameEvent) :
    Reachable g → g.draw_card p = some (r, g') → Reachable g'

theorem initialize_deck_unshuffled_length : initialize_deck_unshuffled.length = 108 := by
  decide

theorem handsSum_initial (names : List String) :
    handsSum (names.enum.map (fun p => Player.new p.1 p.2)) = 0 := by
  simp [handsSum, List.map_map, Function.comp_def, Player.new]

theorem new_count {names : List String} {d : List Card} {g : UnoGame}
    (hperm : d.Perm initialize_deck_unshuffled) (h : UnoGame.new names d = Except.ok g) :
    cardCount g = 108 := by
  have hd : d.length = 108 := by
    rw [hperm.length_eq, initialize_deck_unshuffled_length]
  simp only [UnoGame.new] at h
  cases hdr : dealRounds 7 (names.enum.map (fun p => Player.new p.1 p.2)) d with
  | error e => rw [hdr] at h; exact absurd h (by simp)
  | ok pr =>
    obtain ⟨players', deck⟩ := pr
    rw [hdr] at h
    simp only at h
    cases hpop : popTop deck with
    | none => rw [hpop] at h; exact absurd h (by simp)
    | some pr2 =>
      obtain ⟨top_card, deck'⟩ := pr2
      rw [hpop] at h
      simp only [Except.ok.injEq] at h
      subst h
      have hcons := dealRounds_conserve 7 _ d players' deck hdr
      have hinit := handsSum_initial names
      have hlen := popTop_length hpop
      simp only [cardCount, List.length_cons, List.length_nil]
      omega

/-- Claim C4: card conservation over all reachable states. -/
theorem claim_C4_card_conservation (g : UnoGame) (h : Reachable g) :
    cardCount g = 108 := by
  induction h with
  | base names d g hperm hnew => exact new_count hperm hnew
  | play g g' p i r _ hstep ih => rw [play_card_count hstep]; exact ih
  | draw g g' p r _ hstep ih => rw [draw_card_count hstep]; exact ih

/-- Claim C5: any shuffle of the deck built by `initialize_deck` has exactly
108 cards with the fixed composition: per concrete color one Number 0, two
each of Number 1..9, two each of Skip, Reverse and DrawTwo; plus 4 Wild and
4 WildDrawFour cards colored Wild. -/
theorem claim_C5_deck_composition (d : List Card)
    (hperm : d.Perm initialize_deck_unshuffled) :
    d.length = 108 ∧
    (∀ c ∈ [Color.Red, Color.Green, Color.Blue, Color.Yellow],
      d.count (Card.new c (CardType.Number 0)) = 1 ∧
      (∀ r ∈ List.range' 1 9, d.count (Card.new c (CardType.Number r)) = 2) ∧
      d.count (Card.new c CardType.Skip) = 2 ∧
      d.count (Card.new c CardType.Reverse) = 2 ∧
      d.count (Card.new c CardType.DrawTwo) = 2) ∧
    d.count (Card.new Color.Wild CardType.Wild) = 4 ∧
    d.count (Card.new Color.Wild CardType.WildDrawFour) = 4 := by
  have hc : ∀ a : Card, d.count a = initialize_deck_unshuffled.count a :=
    fun a => hperm.count_eq a
  simp only [hc, hperm.length_eq]
  decide

/-- Witness for C5: the unshuffled deck itself. -/
theorem claim_C5_deck_composition_witness :
    initialize_deck_unshuffled.length = 108 ∧
    (∀ c ∈ [Color.Red, Color.Green, Color.Blue, Color.Yellow],
      initialize_deck_unshuffled.count (Card.new c (CardType.Number 0)) = 1 ∧
      (∀ r ∈ List.range' 1 9,
        initialize_deck_unshuffled.count (Card.new c (CardType.Number r)) = 2) ∧
      initialize_deck_unshuffled.count (Card.new c CardType.Skip) = 2 ∧
      initialize_deck_unshuffled.count (Card.new c CardType.Reverse) = 2 ∧
      initialize_deck_unshuffled.count (Card.new c CardType.DrawTwo) = 2) ∧
    initialize_deck_unshuffled.count (Card.new Color.Wild CardType.Wild) = 4 ∧
    initialize_deck_unshuffled.count (Card.new Color.Wild CardType.WildDrawFour) = 4 :=
  claim_C5_deck_composition initialize_deck_unshuffled (List.Perm.refl _)

theorem handsVec_initial (names : List String) :
    handsVec (names.enum.map (fun p => Player.new p.1 p.2)) =
      List.replicate names.length 0 := by
  simp only [handsVec, List.map_map, Function.comp_def, Player.new,
    List.length_nil]
  rw [List.map_const', List.enum_length]

/-- Claim C6: for 2 to 13 players, `new` succeeds with 7-card hands, a
1-card discard pile, `108 - 7*n - 1` cards left in the deck, and the stated
initial turn, direction, pending draws and status. -/
theorem claim_C6_new_game_shape (names : List String) (d : List Card)
    (hlo : 2 ≤ names.length) (hhi : names.length ≤ 13)
    (hperm : d.Perm initialize_deck_unshuffled) :
    ∃ g, UnoGame.new names d = Except.ok g ∧
      (∀ p ∈ g.players, p.hand.length = 7) ∧
      g.discard_pile.length = 1 ∧
      g.deck.length = 108 - 7 * names.length - 1 ∧
      g.current_turn = 0 ∧
      g.direction = Direction.Clockwise ∧
      g.pending_draws = 0 ∧
      g.status = GameStatus.InProgress := by
  have hd : d.length = 108 := by
    rw [hperm.length_eq, initialize_deck_unshuffled_length]
  have hplen : (names.enum.map (fun p => Player.new p.1 p.2)).length = names.length := by
    rw [List.length_map, List.enum_length]
  obtain ⟨ps', d', hdeal, hhv, hd'⟩ :=
    dealRounds_spec 7 (names.enum.map (fun p => Player.new p.1 p.2)) d
      (by rw [hplen, hd]; omega)
  rw [handsVec_initial, List.map_replicate] at hhv
  obtain ⟨top, d'', hpop, hd''⟩ := popTop_spec (l := d')
    (by rw [hd', hplen, hd]; omega)
  refine ⟨{ players := ps', deck := d'', discard_pile := [(top, usize_MAX)],
            current_turn := 0, direction := Direction.Clockwise,
            pending_draws := 0, status := GameStatus.InProgress },
          ?_, ?_, rfl, ?_, rfl, rfl, rfl, rfl⟩
  · simp only [UnoGame.new, hdeal, hpop]
  · intro p hp
    have hmem : p.hand.length ∈ handsVec ps' := List.mem_map_of_mem _ hp
    rw [hhv] at hmem
    exact List.eq_of_mem_replicate hmem
  · rw [hd'', hd', hplen, hd]

/-- Witness for C6: two players and the unshuffled deck. -/
theorem claim_C6_new_game_shape_witness :
    2 ≤ (["A", "B"] : List String).length ∧ (["A", "B"] : List String).length ≤ 13 ∧
    ∃ g, UnoGame.new ["A", "B"] initialize_deck_unshuffled = Except.ok g ∧
      (∀ p ∈ g.players, p.hand.length = 7) ∧
      g.discard_pile.length = 1 ∧
      g.deck.length = 108 - 7 * (["A", "B"] : List String).length - 1 ∧
      g.current_turn = 0 ∧
      g.direction = Direction.Clockwise ∧
      g.pending_draws = 0 ∧
      g.status = GameStatus.InProgress :=
  ⟨by decide, by decide,
    claim_C6_new_game_shape ["A", "B"] initialize_deck_unshuffled
      (by decide) (by decide) (List.Perm.refl _)⟩

/-- Claim C7: characterization of the legality predicate, and the fact that
Skip/Reverse/DrawTwo cards never match by kind alone against a
differently-colored, non-wild top card. -/
theorem claim_C7_can_play_characterization :
    (∀ card top_card : Card,
      can_play_card card top_card = true ↔
        (card.color = Color.Wild ∨ card.card_type = CardType.Wild
          ∨ card.card_type = CardType.WildDrawFour
          ∨ top_card.color = Color.Wild
          ∨ card.color = top_card.color
          ∨ ∃ n, card.card_type = CardType.Number n
              ∧ top_card.card_type = CardType.Number n)) ∧
    (∀ card top_card : Card,
      card.color ≠ Color.Wild → top_card.color ≠ Color.Wild →
      card.color ≠ top_card.color →
      (card.card_type = CardType.Skip ∨ card.card_type = CardType.Reverse
        ∨ card.card_type = CardType.DrawTwo) →
      can_play_card card top_card = false) := by
  constructor
  · intro card top
    unfold can_play_card
    split_ifs with h1 h2
    · simp only [true_iff]
      tauto
    · simp only [true_iff]
      tauto
    · push_neg at h1 h2
      obtain ⟨hc1, hc2, hc3⟩ := h1
      simp only [Bool.or_eq_true, decide_eq_true_eq]
      cases hk : card.card_type <;> cases ht : top.card_type <;>
        simp_all [CardType.Number.injEq] <;> tauto
  · intro card top h1 h2 h3 h4
    have hfalse : ¬(card.color = Color.Wild ∨ card.card_type = CardType.Wild
        ∨ card.card_type = CardType.WildDrawFour) := by
      rcases h4 with h' | h' | h' <;> simp [h', h1]
    unfold can_play_card
    rw [if_neg hfalse, if_neg h2]
    rcases h4 with h' | h' | h' <;> simp [h', h3]

/-- Witness for C7: a same-rank Number pair is playable; a Skip on a
differently colored Skip is not. -/
theorem claim_C7_can_play_characterization_witness :
    can_play_card (Card.new Color.Red (CardType.Number 5))
      (Card.new Color.Blue (CardType.Number 5)) = true ∧
    can_play_card (Card.new Color.Red CardType.Skip)
      (Card.new Color.Blue CardType.Skip) = false :=
  ⟨(claim_C7_can_play_characterization.1 _ _).mpr
      (Or.inr (Or.inr (Or.inr (Or.inr (Or.inr ⟨5, rfl, rfl⟩))))),
    claim_C7_can_play_characterization.2 _ _
      (by decide) (by decide) (by decide) (Or.inl rfl)⟩

/-- Claim C9: a successful play of the current player's last card wins:
status becomes Complete, the event is PlayerWins, and no special-card
effect is applied (turn, direction and pending draws are untouched),
whatever the kind of the winning card. -/
theorem claim_C9_win_short_circuit (g : UnoGame) (p i : Nat) (player : Player)
    (hstat : g.status = GameStatus.InProgress)
    (hturn : p = g.current_turn)
    (hp : g.players.get? p = some player)
    (hlen : player.hand.length = 1)
    (hi : i < player.hand.length) :
    ∃ card g', player.hand.get? i = some card ∧
      g.play_card p i = some (Except.ok (GameEvent.PlayerWins p), g') ∧
      g'.status = GameStatus.Complete p ∧
      g'.current_turn = g.current_turn ∧
      g'.direction = g.direction ∧
      g'.pending_draws = g.pending_draws := by
  have hi0 : i = 0 := by omega
  subst hi0
  subst hturn
  obtain ⟨a, ha⟩ := List.length_eq_one.mp hlen
  have hp' : g.players[g.current_turn]? = some player := by
    rw [← List.get?_eq_getElem?]
    exact hp
  refine ⟨a,
    { g with
        players := g.players.set g.current_turn { player with hand := player.hand.eraseIdx 0 }
        discard_pile := g.discard_pile ++ [(a, g.current_turn)]
        status := GameStatus.Complete g.current_turn },
    (by rw [ha]; rfl), ?_, rfl, rfl, rfl, rfl⟩
  simp [UnoGame.play_card, hstat, hp', ha]

/-- Concrete game for the C9 witness: player A holds a single Skip card. -/
def gameC9 : UnoGame :=
  { players := [⟨0, "A", [Card.new Color.Red CardType.Skip]⟩,
                ⟨1, "B", [Card.new Color.Blue (CardType.Number 1)]⟩]
    deck := [Card.new Color.Green (CardType.Number 2)]
    discard_pile := [(Card.new Color.Red (CardType.Number 7), usize_MAX)]
    current_turn := 0
    direction := Direction.Clockwise
    pending_draws := 0
    status := GameStatus.InProgress }

/-- Witness for C9: winning on a Skip card applies no skip effect. -/
theorem claim_C9_win_short_circuit_witness :
    ∃ card g', (⟨0, "A", [Card.new Color.Red CardType.Skip]⟩ : Player).hand.get? 0 = some card ∧
      gameC9.play_card 0 0 = some (Except.ok (GameEvent.PlayerWins 0), g') ∧
      g'.status = GameStatus.Complete 0 ∧
      g'.current_turn = gameC9.current_turn ∧
      g'.direction = gameC9.direction ∧
      g'.pending_draws = gameC9.pending_draws :=
  claim_C9_win_short_circuit gameC9 0 0 ⟨0, "A", [Card.new Color.Red CardType.Skip]⟩
    rfl rfl rfl rfl (by decide)

/-- Concrete game for C8: player A holds a plain Wild and a second card, so
the play cannot win. -/
def gameC8 : UnoGame :=
  { players := [⟨0, "A", [Card.new Color.Wild CardType.Wild,
                          Card.new Color.Red (CardType.Number 5)]⟩,
                ⟨1, "B", [Card.new Color.Blue (CardType.Number 1)]⟩]
    deck := [Card.new Color.Green (CardType.Number 2)]
    discard_pile := [(Card.new Color.Blue (CardType.Number 7), usize_MAX)]
    current_turn := 0
    direction := Direction.Clockwise
    pending_draws := 0
    status := GameStatus.InProgress }

/-- Counterexample to C8 as stated: player 0 plays a plain Wild (not a
winning play) and `play_card` DOES advance `current_turn`, from 0 to 1,
contradicting the claim that the turn stays with the player who played. -/
theorem claim_C8_counterexample :
    gameC8.play_card 0 0 =
      some (Except.ok (GameEvent.CardPlayed 0 "A" (Card.new Color.Wild CardType.Wild)),
        { players := [⟨0, "A", [Card.new Color.Red (CardType.Number 5)]⟩,
                      ⟨1, "B", [Card.new Color.Blue (CardType.Number 1)]⟩]
          deck := [Card.new Color.Green (CardType.Number 2)]
          discard_pile := [(Card.new Color.Blue (CardType.Number 7), usize_MAX),
                           (Card.new Color.Wild CardType.Wild, 0)]
          current_turn := 1
          direction := Direction.Clockwise
          pending_draws := 0
          status := GameStatus.InProgress }) ∧
    (1 : Nat) ≠ 0 := by
  exact ⟨rfl, by decide⟩

/-- Claim C8 amended: a successful, non-winning play of a plain Wild card
falls into `play_card`'s default arm and advances `current_turn` one step
in the current direction, exactly like a normal number card. -/
theorem claim_C8_amended_wild_advances_turn (g : UnoGame) (p i : Nat)
    (player : Player) (card : Card)
    (hstat : g.status = GameStatus.InProgress)
    (hturn : p = g.current_turn)
    (hp : g.players.get? p = some player)
    (hc : player.hand.get? i = some card)
    (hkind : card.card_type = CardType.Wild)
    (hlen : 2 ≤ player.hand.length) :
    ∃ g', g.play_card p i = some
        (Except.ok (GameEvent.CardPlayed p player.name card), g') ∧
      g'.current_turn =
        (match g.direction with
          | Direction.Clockwise => (g.current_turn + 1) % g.players.length
          | Direction.CounterClockwise =>
              (g.current_turn + g.players.length - 1) % g.players.length) := by
  subst hturn
  have hilt : i < player.hand.length := by
    rw [List.get?_eq_some] at hc
    exact hc.1
  have hemlen := List.length_eraseIdx_add_one (l := player.hand) (i := i) hilt
  have hp' : g.players[g.current_turn]? = some player := by
    rw [← List.get?_eq_getElem?]
    exact hp
  have hc' : player.hand[i]? = some card := by
    rw [← List.get?_eq_getElem?]
    exact hc
  have hcond : ¬(player.hand = [] ∨ (player.hand.length = 1 ∧ i = 0)) := by
    rintro (h | ⟨h, -⟩)
    · rw [h] at hlen
      simp at hlen
    · omega
  refine ⟨UnoGame.next_turn
      { g with
          players := g.players.set g.current_turn { player with hand := player.hand.eraseIdx i }
          discard_pile := g.discard_pile ++ [(card, g.current_turn)] },
      ?_, ?_⟩
  · simp [UnoGame.play_card, hstat, hp', hc', hcond, hkind]
  · cases hd : g.direction <;>
      simp [UnoGame.next_turn, hd, List.length_set]

/-- Witness for the amended C8 at the concrete game `gameC8`. -/
theorem claim_C8_amended_wild_advances_turn_witness :
    ∃ g', gameC8.play_card 0 0 = some
        (Except.ok (GameEvent.CardPlayed 0 "A" (Card.new Color.Wild CardType.Wild)), g') ∧
      g'.current_turn = (1 : Nat) :=
  claim_C8_amended_wild_advances_turn gameC8 0 0
    ⟨0, "A", [Card.new Color.Wild CardType.Wild, Card.new Color.Red (CardType.Number 5)]⟩
    (Card.new Color.Wild CardType.Wild) rfl rfl rfl rfl rfl (by decide)

/-- Concrete two-player in-progress game reused by the C10 analysis. -/
def gameC10 : UnoGame :=
  { players := [⟨0, "A", [Card.new Color.Red (CardType.Number 5)]⟩,
                ⟨1, "B", [Card.new Color.Blue (CardType.Number 1)]⟩]
    deck := [Card.new Color.Green (CardType.Number 2)]
    discard_pile := [(Card.new Color.Blue (CardType.Number 7), usize_MAX)]
    current_turn := 0
    direction := Direction.Clockwise
    pending_draws := 0
    status := GameStatus.InProgress }

/-- Counterexample to C10 as stated: with 2 players, `draw_card 2` indexes
`players[2]` and panics (modelled as `none`) instead of returning a typed
error. -/
theorem claim_C10_counterexample :
    gameC10.players.length = 2 ∧ gameC10.draw_card 2 = none := by
  exact ⟨rfl, rfl⟩

/-- Claim C10 amended: for every in-range `player_id` — with no constraint
on turn, status, pending draws or deck — `draw_card` returns a result (an
event or a typed `GameError`) and never panics. -/
theorem claim_C10_amended_no_panic_in_range (g : UnoGame) (p : Nat)
    (hp : p < g.players.length) :
    (g.draw_card p).isSome = true := by
  unfold UnoGame.draw_card
  cases hg : g.players.get? p with
  | none =>
    rw [List.get?_eq_none] at hg
    omega
  | some player =>
    simp only
    split
    · cases hdp : drawPending g.pending_draws player g.deck [] with
      | mk r pr =>
        obtain ⟨player', deck'⟩ := pr
        cases r <;> simp
    · cases hpop : popTop g.deck with
      | none => simp
      | some pr =>
        obtain ⟨card, deck'⟩ := pr
        simp

/-- Witness for the amended C10: drawing by in-range player 0 succeeds. -/
theorem claim_C10_amended_no_panic_in_range_witness :
    (gameC10.draw_card 0).isSome = true :=
  claim_C10_amended_no_panic_in_range gameC10 0 (by decide)

/-- Concrete game for C1: the current player's selected card (Red 5) fails
the legality check against the discard top (Blue 7). -/
def gameC1 : UnoGame :=
  { players := [⟨0, "A", [Card.new Color.Red (CardType.Number 5),
                          Card.new Color.Red (CardType.Number 6)]⟩,
                ⟨1, "B", [Card.new Color.Blue (CardType.Number 1)]⟩]
    deck := [Card.new Color.Green (CardType.Number 2)]
    discard_pile := [(Card.new Color.Blue (CardType.Number 7), usize_MAX)]
    current_turn := 0
    direction := Direction.Clockwise
    pending_draws := 0
    status := GameStatus.InProgress }

/-- Claim C1 evaluated on the code (code bug): the selected card fails
`can_play_card` against the discard top, yet `play_card` never consults the
legality check: the call succeeds, the illegal card leaves the hand and
lands on the discard pile, and no `InvalidMove` is produced. -/
theorem claim_C1_illegal_play_accepted :
    can_play_card (Card.new Color.Red (CardType.Number 5))
      (Card.new Color.Blue (CardType.Number 7)) = false ∧
    gameC1.play_card 0 0 =
      some (Except.ok (GameEvent.CardPlayed 0 "A" (Card.new Color.Red (CardType.Number 5))),
        { players := [⟨0, "A", [Card.new Color.Red (CardType.Number 6)]⟩,
                      ⟨1, "B", [Card.new Color.Blue (CardType.Number 1)]⟩]
          deck := [Card.new Color.Green (CardType.Number 2)]
          discard_pile := [(Card.new Color.Blue (CardType.Number 7), usize_MAX),
                           (Card.new Color.Red (CardType.Number 5), 0)]
          current_turn := 1
          direction := Direction.Clockwise
          pending_draws := 0
          status := GameStatus.InProgress }) := by
  exact ⟨rfl, rfl⟩

/-- Concrete game for C2: the current player owes 2 pending draws. -/
def gameC2 : UnoGame :=
  { gameC1 with pending_draws := 2 }

/-- Claim C2 evaluated on the code (code bug): with `pending_draws = 2` the
current player's `play_card` succeeds anyway — `play_card` never checks
`pending_draws` — and the 2 owed draws are left pending, now falling on the
next player. -/
theorem claim_C2_play_ignores_pending_draws :
    gameC2.pending_draws = 2 ∧
    gameC2.play_card 0 0 =
      some (Except.ok (GameEvent.CardPlayed 0 "A" (Card.new Color.Red (CardType.Number 5))),
        { players := [⟨0, "A", [Card.new Color.Red (CardType.Number 6)]⟩,
                      ⟨1, "B", [Card.new Color.Blue (CardType.Number 1)]⟩]
          deck := [Card.new Color.Green (CardType.Number 2)]
          discard_pile := [(Card.new Color.Blue (CardType.Number 7), usize_MAX),
                           (Card.new Color.Red (CardType.Number 5), 0)]
          current_turn := 1
          direction := Direction.Clockwise
          pending_draws := 2
          status := GameStatus.InProgress }) := by
  exact ⟨rfl, rfl⟩

/-- Concrete completed game for C3: status is Complete 0, it is seat 1's
turn by the `current_turn` field. -/
def gameC3 : UnoGame :=
  { gameC1 with status := GameStatus.Complete 0, current_turn := 1 }

/-- Claim C3 evaluated on the code (code bug): `play_card` does refuse a
completed game (with the string error "Game is already over", not the typed
`GameAlreadyOver`, and leaves the state unchanged), but `draw_card` has no
status check at all: on the completed game it still moves a card from the
deck into the hand and advances the turn. -/
theorem claim_C3_draw_mutates_after_complete :
    gameC3.status = GameStatus.Complete 0 ∧
    gameC3.play_card 1 0 = some (Except.error ("Game is already over"), gameC3) ∧
    gameC3.draw_card 1 =
      some (Except.ok (GameEvent.CardDrawn 1 (Card.new Color.Green (CardType.Number 2))),
        { players := [⟨0, "A", [Card.new Color.Red (CardType.Number 5),
                                Card.new Color.Red (CardType.Number 6)]⟩,
                      ⟨1, "B", [Card.new Color.Blue (CardType.Number 1),
                                Card.new Color.Green (CardType.Number 2)]⟩]
          deck := []
          discard_pile := [(Card.new Color.Blue (CardType.Number 7), usize_MAX)]
          current_turn := 0
          direction := Direction.Clockwise
          pending_draws := 0
          status := GameStatus.Complete 0 }) := by
  exact ⟨rfl, rfl, rfl⟩

/-- Fallback value used only by `demoGame`. -/
def emptyGame : UnoGame :=
  { players := [], deck := [], discard_pile := [], current_turn := 0,
    direction := Direction.Clockwise, pending_draws := 0,
    status := GameStatus.InProgress }

/-- The concrete game dealt from the unshuffled deck to players A and B. -/
def demoGame : UnoGame :=
  ((UnoGame.new ["A", "B"] initialize_deck_unshuffled).toOption).getD emptyGame

theorem demoGame_new :
    UnoGame.new ["A", "B"] initialize_deck_unshuffled = Except.ok demoGame := by
  rfl

/-- Witness for C4: the freshly dealt two-player game carries 108 cards. -/
theorem claim_C4_card_conservation_witness : cardCount demoGame = 108 :=
  claim_C4_card_conservation demoGame
    (Reachable.base ["A", "B"] initialize_deck_unshuffled demoGame
      (List.Perm.refl _) demoGame_new)
